import Mathlib

/-!
Shallow embedding of `src/src/source/eFlexPwmTimer.cpp` (namespace `eFlex`).

Each `Timer` method is translated as a pure function that returns the updated
`Timer` value, the boolean result (when the C++ method returns `bool`), and a
trace of the observable effects the method performs, in order: calls to the
register-block primitives `stop()`, `start()`, `setPwmLdok(bool)`, calls into
the submodule capability (`SubModule::begin`, `updateSetting`, `enable`, the
`setup*` broadcasts), the crossbar routing call `xbar_connect`, and the SDK
fault-record apply `PWM_SetupFaults`.  The hardware register contents
themselves are outside this core (external collaborators per the spec), so
the trace records the calls the Timer makes into them.
-/

namespace eFlex

/-- Modelled from the spec: the number of submodule slots per timer.  The
constant `NofSubmodules` lives in a header that is not under `src/`; the spec
fixes the collection at 4 slots. -/
def NofSubmodules : Nat := 4

/-- Modelled from the spec: the number of timer units.  The constant
`NofTimers` lives in a header that is not under `src/`; the spec fixes the
set at 4 units (the crossbar table in `src` also has 4 rows). -/
def NofTimers : Nat := 4

/-- Timer unit index `Pwm1` (enumerator from the headers, 0-based). -/
def Pwm1 : Nat := 0

/-- Timer unit index `Pwm2`. -/
def Pwm2 : Nat := 1

/-- Timer unit index `Pwm3`. -/
def Pwm3 : Nat := 2

/-- Timer unit index `Pwm4`. -/
def Pwm4 : Nat := 3

/-- Modelled from the spec: the physical crossbar output identifiers
`XBARA1_OUT_FLEXPWMx_FAULTy` are SDK constants external to the repository;
they are distinct opaque identifiers, one per (timer, fault line) pair. -/
inductive XBarOut where
  | XBARA1_OUT_FLEXPWM1_FAULT0 : XBarOut
  | XBARA1_OUT_FLEXPWM1_FAULT1 : XBarOut
  | XBARA1_OUT_FLEXPWM1_FAULT2 : XBarOut
  | XBARA1_OUT_FLEXPWM1_FAULT3 : XBarOut
  | XBARA1_OUT_FLEXPWM2_FAULT0 : XBarOut
  | XBARA1_OUT_FLEXPWM2_FAULT1 : XBarOut
  | XBARA1_OUT_FLEXPWM2_FAULT2 : XBarOut
  | XBARA1_OUT_FLEXPWM2_FAULT3 : XBarOut
  | XBARA1_OUT_FLEXPWM3_FAULT0 : XBarOut
  | XBARA1_OUT_FLEXPWM3_FAULT1 : XBarOut
  | XBARA1_OUT_FLEXPWM3_FAULT2 : XBarOut
  | XBARA1_OUT_FLEXPWM3_FAULT3 : XBarOut
  | XBARA1_OUT_FLEXPWM4_FAULT0 : XBarOut
  | XBARA1_OUT_FLEXPWM4_FAULT1 : XBarOut
  | XBARA1_OUT_FLEXPWM4_FAULT2 : XBarOut
  | XBARA1_OUT_FLEXPWM4_FAULT3 : XBarOut
  deriving DecidableEq, Repr

/-- Observable effects a `Timer` method performs, in program order.  Submodule
events carry the slot index and the arguments of the call; `xbarConnect`
carries the `input` pin and the (total-embedding) table lookup result;
`pwmSetupFaults` carries the register-block handle, `faultNum`, and the
native fault record. -/
inductive Event where
  | stop : Event
  | start : Event
  | setPwmLdok : Bool → Event
  | smBegin : Nat → Bool → Bool → Event
  | smEnable : Nat → Bool → Event
  | smSetupLevel : Nat → Nat → Event
  | smSetupDeadtime : Nat → Nat → Event
  | smSetupOutputEnable : Nat → Bool → Event
  | smSetupDutyCyclePercent : Nat → Nat → Event
  | smSetupFaultState : Nat → Nat → Event
  | smUpdateSetting : Nat → Bool → Event
  | xbarConnect : Nat → Option XBarOut → Event
  | pwmSetupFaults : Nat → Nat → Nat → Event
  deriving DecidableEq, Repr

/-- Modelled from the spec: the SubModule capability (external collaborator,
declared in a header not under `src/`).  A mock that fixes the result its
`begin` call returns (the Timer always passes `(false, false)`) and the
result of `updateSetting` as a function of its `doSync` argument. -/
structure SubM where
  beginResult : Bool
  updateResult : Bool → Bool

/-- The global `SmList[NofTimers][NofSubmodules]` table of optional submodule
pointers: slot `(t, i)` holds the submodule installed there, if any.  It is
populated externally (by SubModule construction), never written by `Timer`
methods, so it is a read-only parameter of the embedding. -/
def SmList : Type := Nat → Nat → Option SubM

/-- Modelled from the spec: `PWM[index]`, the register-block handle table;
handles are stable opaque values, one per unit, modelled by the index. -/
def PWM (index : Nat) : Nat := index

/-- The `Timer` object state: its fields `m_tmidx`, `m_ptr`, `m_isenabled`
from the class declaration. -/
structure Timer where
  m_tmidx : Nat
  m_ptr : Nat
  m_isenabled : Bool
  deriving DecidableEq, Repr

/-- The constructor `Timer::Timer(uint8_t index)`: initializer list
`m_tmidx(index), m_ptr(PWM[index]), m_isenabled(true)`. -/
def Timer.create (index : Nat) : Timer :=
  { m_tmidx := index, m_ptr := PWM index, m_isenabled := true }

/-- The fan-out loop of `Timer::begin`:
`for (i = 0; (i < NofSubmodules) && success; i++) { if (SmList[t][i]) success &= s->begin(false,false); }`.
The loop condition tests `success` each iteration, so the loop stops once a
submodule has failed.  `fuel` counts the remaining iterations
(`NofSubmodules - i`). -/
def beginLoop (sml : SmList) (t : Nat) : Nat → Nat → Bool → Bool × List Event
  | 0, _, success => (success, [])
  | fuel + 1, i, success =>
    if success then
      match sml t i with
      | some s =>
        let p := beginLoop sml t fuel (i + 1) (success && s.beginResult)
        (p.1, Event.smBegin i false false :: p.2)
      | none => beginLoop sml t fuel (i + 1) success
    else (success, [])

/-- `Timer::begin(doStart, doSync)`: if `doStart`, `stop()`; if `doSync`,
`setPwmLdok(false)`; fan out `begin(false,false)` over the submodule slots
(fail-fast loop above); if `doSync`, `setPwmLdok(true)`; if
`doStart && success`, `start()`; return `success`.  No field of the Timer is
written. -/
def Timer.begin (sml : SmList) (tm : Timer) (doStart doSync : Bool) :
    Timer × Bool × List Event :=
  let p := beginLoop sml tm.m_tmidx NofSubmodules 0 true
  (tm,
   p.1,
   (if doStart then [Event.stop] else []) ++
   (if doSync then [Event.setPwmLdok false] else []) ++
   p.2 ++
   (if doSync then [Event.setPwmLdok true] else []) ++
   (if doStart && p.1 then [Event.start] else []))

/-- The shared shape of the broadcast loops (`enable`, `setupLevel`,
`setupDeadtime`, `setupOutputEnable`, `setupDutyCyclePercent`,
`setupFaultState`): visit every slot `0 ≤ i < NofSubmodules`, emit the call
for present slots, skip absent ones. -/
def broadcastLoop (sml : SmList) (t : Nat) (mk : Nat → Event) :
    Nat → Nat → List Event
  | 0, _ => []
  | fuel + 1, i =>
    match sml t i with
    | some _ => mk i :: broadcastLoop sml t mk fuel (i + 1)
    | none => broadcastLoop sml t mk fuel (i + 1)

/-- `Timer::enable(value)`: broadcast `enable(value)` to every present
submodule, then `m_isenabled = value`. -/
def Timer.enable (sml : SmList) (tm : Timer) (value : Bool) :
    Timer × List Event :=
  ({ tm with m_isenabled := value },
   broadcastLoop sml tm.m_tmidx (fun i => Event.smEnable i value) NofSubmodules 0)

/-- `Timer::setupLevel(level)`: pure broadcast; `pwm_level_select_t`
modelled as a number. -/
def Timer.setupLevel (sml : SmList) (tm : Timer) (level : Nat) :
    Timer × List Event :=
  (tm,
   broadcastLoop sml tm.m_tmidx (fun i => Event.smSetupLevel i level) NofSubmodules 0)

/-- `Timer::setupDeadtime(deadtimeValue)`: pure broadcast. -/
def Timer.setupDeadtime (sml : SmList) (tm : Timer) (deadtimeValue : Nat) :
    Timer × List Event :=
  (tm,
   broadcastLoop sml tm.m_tmidx (fun i => Event.smSetupDeadtime i deadtimeValue) NofSubmodules 0)

/-- `Timer::setupOutputEnable(activate)`: pure broadcast. -/
def Timer.setupOutputEnable (sml : SmList) (tm : Timer) (activate : Bool) :
    Timer × List Event :=
  (tm,
   broadcastLoop sml tm.m_tmidx (fun i => Event.smSetupOutputEnable i activate) NofSubmodules 0)

/-- `Timer::setupDutyCyclePercent(dutyCyclePercent)`: pure broadcast. -/
def Timer.setupDutyCyclePercent (sml : SmList) (tm : Timer) (dutyCyclePercent : Nat) :
    Timer × List Event :=
  (tm,
   broadcastLoop sml tm.m_tmidx (fun i => Event.smSetupDutyCyclePercent i dutyCyclePercent) NofSubmodules 0)

/-- `Timer::setupFaultState(faultState)`: pure broadcast; `pwm_fault_state_t`
modelled as a number. -/
def Timer.setupFaultState (sml : SmList) (tm : Timer) (faultState : Nat) :
    Timer × List Event :=
  (tm,
   broadcastLoop sml tm.m_tmidx (fun i => Event.smSetupFaultState i faultState) NofSubmodules 0)

/-- The fan-out loop of `Timer::updateSetting`:
`for (i = 0; i < NofSubmodules; i++) { if (SmList[t][i]) success &= s->updateSetting(doSync); }`.
Unlike the loop in `begin`, the condition does not test `success`, so every
present slot is visited even after a failure. -/
def updateLoop (sml : SmList) (t : Nat) (doSync : Bool) :
    Nat → Nat → Bool → Bool × List Event
  | 0, _, success => (success, [])
  | fuel + 1, i, success =>
    match sml t i with
    | some s =>
      let p := updateLoop sml t doSync fuel (i + 1) (success && s.updateResult doSync)
      (p.1, Event.smUpdateSetting i doSync :: p.2)
    | none => updateLoop sml t doSync fuel (i + 1) success

/-- `Timer::updateSetting(doSync)`: fan out `updateSetting(doSync)` over the
submodule slots and return the AND-aggregated result.  The method itself
performs no `setPwmLdok` call and writes no Timer field. -/
def Timer.updateSetting (sml : SmList) (tm : Timer) (doSync : Bool) :
    Timer × Bool × List Event :=
  let p := updateLoop sml tm.m_tmidx doSync NofSubmodules 0 true
  (tm, p.1, p.2)

/-- The constant table `XBarFaultOutput[NofTimers][4]` from the source, row
per timer, column per fault line. -/
def XBarFaultOutput : List (List XBarOut) :=
  [[XBarOut.XBARA1_OUT_FLEXPWM1_FAULT0,
    XBarOut.XBARA1_OUT_FLEXPWM1_FAULT1,
    XBarOut.XBARA1_OUT_FLEXPWM1_FAULT2,
    XBarOut.XBARA1_OUT_FLEXPWM1_FAULT3],
   [XBarOut.XBARA1_OUT_FLEXPWM2_FAULT0,
    XBarOut.XBARA1_OUT_FLEXPWM2_FAULT1,
    XBarOut.XBARA1_OUT_FLEXPWM2_FAULT2,
    XBarOut.XBARA1_OUT_FLEXPWM2_FAULT3],
   [XBarOut.XBARA1_OUT_FLEXPWM3_FAULT0,
    XBarOut.XBARA1_OUT_FLEXPWM3_FAULT1,
    XBarOut.XBARA1_OUT_FLEXPWM3_FAULT2,
    XBarOut.XBARA1_OUT_FLEXPWM3_FAULT3],
   [XBarOut.XBARA1_OUT_FLEXPWM4_FAULT0,
    XBarOut.XBARA1_OUT_FLEXPWM4_FAULT1,
    XBarOut.XBARA1_OUT_FLEXPWM4_FAULT2,
    XBarOut.XBARA1_OUT_FLEXPWM4_FAULT3]]

/-- Total-embedding read of `XBarFaultOutput[t][n]`: `none` when either
index is outside the declared bounds of the array. -/
def xbarFaultOutputAt (t n : Nat) : Option XBarOut :=
  (XBarFaultOutput.get? t).bind fun row => row.get? n

/-- Modelled from the spec: `FaultConfig` (declared in a header not under
`src/`) is an immutable fault-response policy whose `kPwmConfig()` method
yields the hardware-native record; the record is modelled as an opaque
number. -/
structure FaultConfig where
  kPwmConfig : Nat
  deriving DecidableEq, Repr

/-- `Timer::setupFaults(faultNum, faultConfig, faultPin)`: guarded by
`(faultNum & 0x03) == 0` (written `faultNum % 4 = 0`); inside the guard, if
`faultPin > 0` call `xbar_connect(faultPin, XBarFaultOutput[m_tmidx][faultNum])`
(the unsigned first argument is `faultPin` converted, positive here), then
unconditionally `PWM_SetupFaults(ptr(), faultNum, faultConfig.kPwmConfig())`.
Outside the guard: nothing at all.  No field of the Timer is written. -/
def Timer.setupFaults (tm : Timer) (faultNum : Nat) (faultConfig : FaultConfig)
    (faultPin : Int) : Timer × List Event :=
  (tm,
   if faultNum % 4 = 0 then
     (if 0 < faultPin then
        [Event.xbarConnect faultPin.toNat (xbarFaultOutputAt tm.m_tmidx faultNum)]
      else []) ++
     [Event.pwmSetupFaults tm.m_ptr faultNum faultConfig.kPwmConfig]
   else [])

/-- The global registry `TMF[NofTimers]` of Timer instances, constructed at
process start via `TimerFactory(index) : Timer(index)` for `Pwm1 .. Pwm4`. -/
def TMF : List Timer :=
  [Timer.create Pwm1, Timer.create Pwm2, Timer.create Pwm3, Timer.create Pwm4]

/-- Whether every present submodule in slots `i ≤ j < i + fuel` of timer `t`
reports success from its `begin(false, false)` call (absent slots count as
success). -/
def allBeginOkFrom (sml : SmList) (t : Nat) : Nat → Nat → Bool
  | 0, _ => true
  | fuel + 1, i =>
    (match sml t i with
     | some s => s.beginResult
     | none => true) && allBeginOkFrom sml t fuel (i + 1)

/-- Whether every present submodule of timer `t` reports success from
`begin(false, false)`. -/
def allBeginOk (sml : SmList) (t : Nat) : Bool :=
  allBeginOkFrom sml t NofSubmodules 0

/-- Whether every present submodule in slots `i ≤ j < i + fuel` of timer `t`
reports success from its `updateSetting(doSync)` call. -/
def allUpdateOkFrom (sml : SmList) (t : Nat) (doSync : Bool) : Nat → Nat → Bool
  | 0, _ => true
  | fuel + 1, i =>
    (match sml t i with
     | some s => s.updateResult doSync
     | none => true) && allUpdateOkFrom sml t doSync fuel (i + 1)

/-- Whether every present submodule of timer `t` reports success from
`updateSetting(doSync)`. -/
def allUpdateOk (sml : SmList) (t : Nat) (doSync : Bool) : Bool :=
  allUpdateOkFrom sml t doSync NofSubmodules 0

/-- The subsequence of `setPwmLdok` calls in a trace. -/
def ldokEvents (evs : List Event) : List Event :=
  evs.filter fun e =>
    match e with
    | Event.setPwmLdok _ => true
    | _ => false

/-- Once `success` is false the `begin` loop exits immediately: no further
submodule is visited. -/
theorem beginLoop_false (sml : SmList) (t : Nat) :
    ∀ fuel i, beginLoop sml t fuel i false = (false, []) := by
  intro fuel i
  cases fuel <;> simp [beginLoop]

/-- The boolean result of the `begin` loop is the conjunction of the starting
accumulator with the results of the present slots in range. -/
theorem beginLoop_fst (sml : SmList) (t : Nat) :
    ∀ fuel i success,
      (beginLoop sml t fuel i success).1 = (success && allBeginOkFrom sml t fuel i) := by
  intro fuel
  induction fuel with
  | zero => intro i success; simp [beginLoop, allBeginOkFrom]
  | succ n ih =>
    intro i success
    cases success with
    | false => simp [beginLoop_false, allBeginOkFrom]
    | true =>
      simp only [beginLoop, if_true]
      cases h : sml t i with
      | none => simp [allBeginOkFrom, h, ih]
      | some s => simp [allBeginOkFrom, h, ih, Bool.and_assoc]

/-- Every event the `begin` loop emits is a `begin(false, false)` call on a
present slot within the visited range. -/
theorem beginLoop_events (sml : SmList) (t : Nat) :
    ∀ fuel i success e, e ∈ (beginLoop sml t fuel i success).2 →
      ∃ j, e = Event.smBegin j false false ∧ i ≤ j ∧ j < i + fuel ∧
        (sml t j).isSome = true := by
  intro fuel
  induction fuel with
  | zero => intro i success e he; simp [beginLoop] at he
  | succ n ih =>
    intro i success e he
    cases success with
    | false => rw [beginLoop_false] at he; simp at he
    | true =>
      simp only [beginLoop, if_true] at he
      cases h : sml t i with
      | none =>
        rw [h] at he
        obtain ⟨j, hj, hij, hjn, hsome⟩ := ih (i + 1) true e he
        exact ⟨j, hj, by omega, by omega, hsome⟩
      | some s =>
        rw [h] at he
        simp only [List.mem_cons] at he
        cases he with
        | inl h0 => exact ⟨i, h0, Nat.le_refl i, by omega, by simp [h]⟩
        | inr h1 =>
          obtain ⟨j, hj, hij, hjn, hsome⟩ := ih (i + 1) (true && s.beginResult) e h1
          exact ⟨j, hj, by omega, by omega, hsome⟩

/-- If every present slot before `k` succeeded, the `begin` loop reaches slot
`k` and, when `k` is present, emits its `begin(false, false)` call. -/
theorem beginLoop_mem (sml : SmList) (t : Nat) :
    ∀ fuel i k, i ≤ k → k < i + fuel → (sml t k).isSome = true →
      (∀ j s, i ≤ j → j < k → sml t j = some s → s.beginResult = true) →
      Event.smBegin k false false ∈ (beginLoop sml t fuel i true).2 := by
  intro fuel
  induction fuel with
  | zero => intro i k hik hk _ _; omega
  | succ n ih =>
    intro i k hik hk hsome hok
    simp only [beginLoop, if_true]
    rcases Nat.eq_or_lt_of_le hik with heq | hlt
    · subst heq
      cases h : sml t i with
      | none => rw [h] at hsome; simp at hsome
      | some s => simp
    · cases h : sml t i with
      | none =>
        exact ih (i + 1) k (by omega) (by omega) hsome
          (fun j s hij hjk hj => hok j s (by omega) hjk hj)
      | some s =>
        have hres : s.beginResult = true := hok i s (Nat.le_refl i) hlt h
        simp only [hres, Bool.and_true, List.mem_cons]
        exact Or.inr (ih (i + 1) k (by omega) (by omega) hsome
          (fun j s2 hij hjk hj => hok j s2 (by omega) hjk hj))

/-- If slot `k` is the first failing present slot reached by the `begin`
loop, every emitted event lies at a slot index at most `k` (the loop stops
right after the failure). -/
theorem beginLoop_after_fail (sml : SmList) (t : Nat) :
    ∀ fuel i k s, i ≤ k → sml t k = some s → s.beginResult = false →
      (∀ j s2, i ≤ j → j < k → sml t j = some s2 → s2.beginResult = true) →
      ∀ e, e ∈ (beginLoop sml t fuel i true).2 →
        ∃ j a b, e = Event.smBegin j a b ∧ j ≤ k := by
  intro fuel
  induction fuel with
  | zero => intro i k s _ _ _ _ e he; simp [beginLoop] at he
  | succ n ih =>
    intro i k s hik hk hfail hok e he
    simp only [beginLoop, if_true] at he
    rcases Nat.eq_or_lt_of_le hik with heq | hlt
    · subst heq
      simp only [hk, hfail, Bool.and_false, beginLoop_false, List.mem_cons] at he
      cases he with
      | inl h0 => exact ⟨i, false, false, h0, Nat.le_refl i⟩
      | inr h1 => simp at h1
    · cases h : sml t i with
      | none =>
        rw [h] at he
        exact ih (i + 1) k s (by omega) hk hfail
          (fun j s2 hij hjk hj => hok j s2 (by omega) hjk hj) e he
      | some s1 =>
        have hres : s1.beginResult = true := hok i s1 (Nat.le_refl i) hlt h
        simp only [h, hres, Bool.and_true, List.mem_cons] at he
        cases he with
        | inl h0 => exact ⟨i, false, false, h0, by omega⟩
        | inr h1 =>
          exact ih (i + 1) k s (by omega) hk hfail
            (fun j s2 hij hjk hj => hok j s2 (by omega) hjk hj) e h1

/-- A present failing slot within range forces `allBeginOkFrom` to false. -/
theorem allBeginOkFrom_false (sml : SmList) (t : Nat) :
    ∀ fuel i k s, i ≤ k → k < i + fuel → sml t k = some s →
      s.beginResult = false → allBeginOkFrom sml t fuel i = false := by
  intro fuel
  induction fuel with
  | zero => intro i k s _ _ _ _; omega
  | succ n ih =>
    intro i k s hik hk hkk hfail
    rcases Nat.eq_or_lt_of_le hik with heq | hlt
    · subst heq
      simp [allBeginOkFrom, hkk, hfail]
    · have := ih (i + 1) k s (by omega) (by omega) hkk hfail
      simp [allBeginOkFrom, this]

/-- The boolean result of the `updateSetting` loop is the conjunction of the
starting accumulator with the results of the present slots in range. -/
theorem updateLoop_fst (sml : SmList) (t : Nat) (doSync : Bool) :
    ∀ fuel i success,
      (updateLoop sml t doSync fuel i success).1 =
        (success && allUpdateOkFrom sml t doSync fuel i) := by
  intro fuel
  induction fuel with
  | zero => intro i success; simp [updateLoop, allUpdateOkFrom]
  | succ n ih =>
    intro i success
    simp only [updateLoop]
    cases h : sml t i with
    | none => simp [allUpdateOkFrom, h, ih]
    | some s => simp [allUpdateOkFrom, h, ih, Bool.and_assoc]

/-- Every event the `updateSetting` loop emits is an `updateSetting(doSync)`
call on a present slot within the visited range. -/
theorem updateLoop_events (sml : SmList) (t : Nat) (doSync : Bool) :
    ∀ fuel i success e, e ∈ (updateLoop sml t doSync fuel i success).2 →
      ∃ j, e = Event.smUpdateSetting j doSync ∧ i ≤ j ∧ j < i + fuel ∧
        (sml t j).isSome = true := by
  intro fuel
  induction fuel with
  | zero => intro i success e he; simp [updateLoop] at he
  | succ n ih =>
    intro i success e he
    simp only [updateLoop] at he
    cases h : sml t i with
    | none =>
      rw [h] at he
      obtain ⟨j, hj, hij, hjn, hsome⟩ := ih (i + 1) success e he
      exact ⟨j, hj, by omega, by omega, hsome⟩
    | some s =>
      simp only [h, List.mem_cons] at he
      cases he with
      | inl h0 => exact ⟨i, h0, Nat.le_refl i, by omega, by simp [h]⟩
      | inr h1 =>
        obtain ⟨j, hj, hij, hjn, hsome⟩ := ih (i + 1) (success && s.updateResult doSync) e h1
        exact ⟨j, hj, by omega, by omega, hsome⟩

/-- The `updateSetting` loop visits every present slot in range, whatever the
accumulator holds (its loop condition does not test `success`). -/
theorem updateLoop_mem (sml : SmList) (t : Nat) (doSync : Bool) :
    ∀ fuel i k success, i ≤ k → k < i + fuel → (sml t k).isSome = true →
      Event.smUpdateSetting k doSync ∈ (updateLoop sml t doSync fuel i success).2 := by
  intro fuel
  induction fuel with
  | zero => intro i k success hik hk _; omega
  | succ n ih =>
    intro i k success hik hk hsome
    simp only [updateLoop]
    rcases Nat.eq_or_lt_of_le hik with heq | hlt
    · subst heq
      cases h : sml t i with
      | none => rw [h] at hsome; simp at hsome
      | some s => simp
    · cases h : sml t i with
      | none => exact ih (i + 1) k success (by omega) (by omega) hsome
      | some s =>
        simp only [List.mem_cons]
        exact Or.inr (ih (i + 1) k (success && s.updateResult doSync)
          (by omega) (by omega) hsome)

/-- The `begin` fan-out loop performs no `setPwmLdok` call. -/
theorem ldokEvents_beginLoop (sml : SmList) (t : Nat) :
    ∀ fuel i success, ldokEvents (beginLoop sml t fuel i success).2 = [] := by
  intro fuel i success
  rw [List.eq_nil_iff_forall_not_mem]
  intro e he
  simp only [ldokEvents, List.mem_filter] at he
  obtain ⟨j, hj, _⟩ := beginLoop_events sml t fuel i success e he.1
  rw [hj] at he
  simp at he

/-- The `updateSetting` fan-out loop performs no `setPwmLdok` call. -/
theorem ldokEvents_updateLoop (sml : SmList) (t : Nat) (doSync : Bool) :
    ∀ fuel i success, ldokEvents (updateLoop sml t doSync fuel i success).2 = [] := by
  intro fuel i success
  rw [List.eq_nil_iff_forall_not_mem]
  intro e he
  simp only [ldokEvents, List.mem_filter] at he
  obtain ⟨j, hj, _⟩ := updateLoop_events sml t doSync fuel i success e he.1
  rw [hj] at he
  simp at he

/-- `Event.start` never appears among the fan-out events of the `begin`
loop. -/
theorem start_not_mem_beginLoop (sml : SmList) (t : Nat) :
    ∀ fuel i success, Event.start ∉ (beginLoop sml t fuel i success).2 := by
  intro fuel i success he
  obtain ⟨j, hj, _⟩ := beginLoop_events sml t fuel i success Event.start he
  exact Event.noConfusion hj

/-- The boolean returned by `Timer::begin` is exactly the success of every
present submodule. -/
theorem timer_begin_fst (sml : SmList) (tm : Timer) (doStart doSync : Bool) :
    (Timer.begin sml tm doStart doSync).2.1 = allBeginOk sml tm.m_tmidx := by
  have h := beginLoop_fst sml tm.m_tmidx NofSubmodules 0 true
  simpa [Timer.begin, allBeginOk] using h

/-- A `begin(a, b)` submodule call appears in the trace of `Timer::begin`
exactly when it appears among the fan-out loop's events (the surrounding
stop / load-ok / start events are of other shapes). -/
theorem smBegin_mem_begin_iff (sml : SmList) (tm : Timer) (doStart doSync : Bool)
    (i : Nat) (a b : Bool) :
    Event.smBegin i a b ∈ (Timer.begin sml tm doStart doSync).2.2 ↔
      Event.smBegin i a b ∈ (beginLoop sml tm.m_tmidx NofSubmodules 0 true).2 := by
  cases hc : (beginLoop sml tm.m_tmidx NofSubmodules 0 true).1 <;>
    cases doStart <;> cases doSync <;> simp [Timer.begin, hc]

/-- C3 (confirmed): `Timer::begin(true, doSync)` emits `stop` as its very
first effect (before any submodule configuration), its aggregate result is
the conjunction of the present submodules' results, and `start` is emitted
if and only if that aggregate succeeded: with the fail-fast loop, every
invoked present submodule succeeding is equivalent to every present
submodule succeeding, and on aggregate failure no `start` occurs, leaving
the counters stopped. -/
theorem timer_begin_stop_start_discipline :
    ∀ (sml : SmList) (tm : Timer) (doSync : Bool),
      ((Timer.begin sml tm true doSync).2.2).head? = some Event.stop ∧
      (Timer.begin sml tm true doSync).2.1 = allBeginOk sml tm.m_tmidx ∧
      (Event.start ∈ (Timer.begin sml tm true doSync).2.2 ↔
        allBeginOk sml tm.m_tmidx = true) := by
  intro sml tm doSync
  have hf := timer_begin_fst sml tm true doSync
  refine ⟨?_, hf, ?_⟩
  · cases doSync <;> simp [Timer.begin]
  · have hst := start_not_mem_beginLoop sml tm.m_tmidx NofSubmodules 0 true
    cases hL : (beginLoop sml tm.m_tmidx NofSubmodules 0 true).1 with
    | false =>
      have hok : allBeginOk sml tm.m_tmidx = false := by
        rw [← hf, timer_begin_fst, ← hf]
        simpa [Timer.begin] using hL
      rw [hok]
      cases doSync <;> simp [Timer.begin, hL, hst]
    | true =>
      have hok : allBeginOk sml tm.m_tmidx = true := by
        rw [← hf]
        simpa [Timer.begin] using hL
      rw [hok]
      cases doSync <;> simp [Timer.begin, hL]

/-- C4 (confirmed): the `setPwmLdok` calls of `Timer::begin` are exactly
disable-then-enable when `doSync` and none otherwise, on every success or
failure path, and `Timer::updateSetting` performs none of its own — so any
load-ok window opened by either call is closed before the call returns. -/
theorem timer_ldok_window_closed :
    ∀ (sml : SmList) (tm : Timer) (doStart doSync : Bool),
      ldokEvents (Timer.begin sml tm doStart doSync).2.2 =
        (if doSync then [Event.setPwmLdok false, Event.setPwmLdok true] else []) ∧
      ldokEvents (Timer.updateSetting sml tm doSync).2.2 = [] := by
  intro sml tm doStart doSync
  constructor
  · have h1 := ldokEvents_beginLoop sml tm.m_tmidx NofSubmodules 0 true
    cases hc : (beginLoop sml tm.m_tmidx NofSubmodules 0 true).1 <;>
      cases doStart <;> cases doSync <;>
        simp [Timer.begin, hc, ldokEvents, List.filter_append] <;>
          simpa [ldokEvents] using h1
  · have h2 := ldokEvents_updateLoop sml tm.m_tmidx doSync NofSubmodules 0 true
    simpa [Timer.updateSetting] using h2

/-- C5 (confirmed): `Timer::setupFaults` with a `faultNum` not on a
4-boundary is a silent no-op (no routing call, no register apply, no
signal); with `faultNum % 4 = 0` the fault record is applied via
`PWM_SetupFaults`. -/
theorem timer_setupFaults_alignment :
    ∀ (tm : Timer) (faultNum : Nat) (cfg : FaultConfig) (pin : Int),
      (faultNum % 4 ≠ 0 → (Timer.setupFaults tm faultNum cfg pin).2 = []) ∧
      (faultNum % 4 = 0 →
        Event.pwmSetupFaults tm.m_ptr faultNum cfg.kPwmConfig ∈
          (Timer.setupFaults tm faultNum cfg pin).2) := by
  intro tm faultNum cfg pin
  constructor
  · intro h; simp [Timer.setupFaults, h]
  · intro h; simp [Timer.setupFaults, h]

/-- C7 (confirmed): every submodule `begin` call made by `Timer::begin`
carries the arguments `(false, false)` and lands on a present slot; absent
slots contribute no call and count as success in the aggregate (skipped, not
an error). -/
theorem timer_begin_passes_false_false :
    ∀ (sml : SmList) (tm : Timer) (doStart doSync : Bool),
      (∀ i a b, Event.smBegin i a b ∈ (Timer.begin sml tm doStart doSync).2.2 →
        a = false ∧ b = false ∧ (sml tm.m_tmidx i).isSome = true) ∧
      (Timer.begin sml tm doStart doSync).2.1 = allBeginOk sml tm.m_tmidx := by
  intro sml tm doStart doSync
  refine ⟨?_, timer_begin_fst sml tm doStart doSync⟩
  intro i a b hmem
  rw [smBegin_mem_begin_iff] at hmem
  obtain ⟨j, hj, _, _, hsome⟩ :=
    beginLoop_events sml tm.m_tmidx NofSubmodules 0 true _ hmem
  injection hj with h1 h2 h3
  subst h1; subst h2; subst h3
  exact ⟨rfl, rfl, hsome⟩

/-- C10 (confirmed): a freshly constructed Timer has `m_isenabled = true`
(the constructor's initializer list sets it before any `enable` or `begin`
call), and accordingly all four registry instances in `TMF` report
themselves enabled at process start. -/
theorem timer_create_enabled :
    ∀ index : Nat, (Timer.create index).m_isenabled = true ∧
      (TMF.all fun tm => tm.m_isenabled) = true := by
  intro index
  exact ⟨rfl, by decide⟩

/-- An environment for timer 0 with two submodules installed: slot 0 fails
its `begin(false, false)` call, slot 1 would succeed. -/
def smlFailFirst : SmList := fun t i =>
  if t == 0 && i == 0 then some { beginResult := false, updateResult := fun _ => true }
  else if t == 0 && i == 1 then some { beginResult := true, updateResult := fun _ => true }
  else none

/-- C1 (counterexample): with slot 0 failing and slot 1 present, the
aggregate of `Timer::begin` is false as claimed, but slot 1 never receives
its `begin` call — the loop condition `(i < NofSubmodules) && success`
stops the fan-out at the first failure. -/
theorem timer_begin_fanout_cex :
    (smlFailFirst 0 1).isSome = true ∧
    (Timer.begin smlFailFirst (Timer.create 0) false false).2.1 = false ∧
    Event.smBegin 1 false false ∉
      (Timer.begin smlFailFirst (Timer.create 0) false false).2.2 := by
  decide

/-- C1 (amended): when slot `k` holds the first present submodule whose
`begin` fails, `Timer::begin` returns false and slot `k` does receive its
call, but no present slot after `k` receives one — the fan-out is
fail-fast, not fail-open. -/
theorem timer_begin_fanout_first_failure :
    ∀ (sml : SmList) (tm : Timer) (doStart doSync : Bool) (k : Nat) (s : SubM),
      k < NofSubmodules →
      sml tm.m_tmidx k = some s →
      s.beginResult = false →
      (∀ j s2, j < k → sml tm.m_tmidx j = some s2 → s2.beginResult = true) →
      (Timer.begin sml tm doStart doSync).2.1 = false ∧
      Event.smBegin k false false ∈ (Timer.begin sml tm doStart doSync).2.2 ∧
      ∀ j a b, k < j →
        Event.smBegin j a b ∉ (Timer.begin sml tm doStart doSync).2.2 := by
  intro sml tm doStart doSync k s hk hks hfail hok
  refine ⟨?_, ?_, ?_⟩
  · rw [timer_begin_fst]
    unfold allBeginOk
    exact allBeginOkFrom_false sml tm.m_tmidx NofSubmodules 0 k s (Nat.zero_le k)
      (by omega) hks hfail
  · rw [smBegin_mem_begin_iff]
    exact beginLoop_mem sml tm.m_tmidx NofSubmodules 0 k (Nat.zero_le k) (by omega)
      (by rw [hks]; rfl) (fun j s2 _ hjk hj => hok j s2 hjk hj)
  · intro j a b hkj hmem
    rw [smBegin_mem_begin_iff] at hmem
    obtain ⟨j2, a2, b2, heq, hle⟩ :=
      beginLoop_after_fail sml tm.m_tmidx NofSubmodules 0 k s (Nat.zero_le k) hks hfail
        (fun j2 s2 _ hjk hj => hok j2 s2 hjk hj) _ hmem
    injection heq with h1 h2 h3
    omega

/-- Closed instance of the amended C1 on `smlFailFirst`: slot 0 fails, so
the call returns false, slot 0 was invoked, and no later slot was. -/
theorem timer_begin_fanout_first_failure_witness :
    (Timer.begin smlFailFirst (Timer.create 0) false false).2.1 = false ∧
    Event.smBegin 0 false false ∈
      (Timer.begin smlFailFirst (Timer.create 0) false false).2.2 ∧
    ∀ j a b, 0 < j →
      Event.smBegin j a b ∉
        (Timer.begin smlFailFirst (Timer.create 0) false false).2.2 :=
  timer_begin_fanout_first_failure smlFailFirst (Timer.create 0) false false 0
    { beginResult := false, updateResult := fun _ => true }
    (by decide) rfl rfl (fun j s2 hj _ => absurd hj (Nat.not_lt_zero j))

/-- An environment for timer 0 with a single submodule installed at slot 0,
succeeding on every call. -/
def smlOne : SmList := fun t i =>
  if t == 0 && i == 0 then some { beginResult := true, updateResult := fun _ => true }
  else none

/-- C2 (counterexample): `Timer::updateSetting(true)` fans out to the
present submodule but emits no `setPwmLdok` call at all — the Timer itself
neither disables nor re-enables the load-ok commit flag, unlike
`Timer::begin(_, true)`. -/
theorem timer_updateSetting_no_ldok_cex :
    Event.smUpdateSetting 0 true ∈
      (Timer.updateSetting smlOne (Timer.create 0) true).2.2 ∧
    Event.setPwmLdok false ∉
      (Timer.updateSetting smlOne (Timer.create 0) true).2.2 ∧
    Event.setPwmLdok true ∉
      (Timer.updateSetting smlOne (Timer.create 0) true).2.2 := by
  decide

/-- C2 (amended): `Timer::updateSetting(doSync)` opens and closes no
load-ok window of its own; every event it emits is an `updateSetting(doSync)`
call on a present slot (the `doSync` flag is forwarded to the submodules,
which handle their own synchronization), every present slot receives that
call, and the result is the AND over all present slots. -/
theorem timer_updateSetting_forwards_doSync :
    ∀ (sml : SmList) (tm : Timer) (doSync : Bool),
      (∀ e ∈ (Timer.updateSetting sml tm doSync).2.2, ∃ i,
        e = Event.smUpdateSetting i doSync ∧ (sml tm.m_tmidx i).isSome = true) ∧
      (∀ i, i < NofSubmodules → (sml tm.m_tmidx i).isSome = true →
        Event.smUpdateSetting i doSync ∈ (Timer.updateSetting sml tm doSync).2.2) ∧
      (Timer.updateSetting sml tm doSync).2.1 = allUpdateOk sml tm.m_tmidx doSync := by
  intro sml tm doSync
  refine ⟨?_, ?_, ?_⟩
  · intro e he
    obtain ⟨j, hj, _, _, hsome⟩ :=
      updateLoop_events sml tm.m_tmidx doSync NofSubmodules 0 true e
        (by simpa [Timer.updateSetting] using he)
    exact ⟨j, hj, hsome⟩
  · intro i hi hsome
    have := updateLoop_mem sml tm.m_tmidx doSync NofSubmodules 0 i true
      (Nat.zero_le i) (by omega) hsome
    simpa [Timer.updateSetting] using this
  · have := updateLoop_fst sml tm.m_tmidx doSync NofSubmodules 0 true
    simpa [Timer.updateSetting, allUpdateOk] using this

/-- C6 (counterexample): `faultNum = 4` passes the 4-alignment guard and,
with a positive `faultPin`, a routing request is issued — but the fixed
4-column table has no entry at column 4, so the total-embedding lookup the
request carries is `none`: there is no recorded physical output for the
pair (timer 0, fault 4), refuting the claim for that 4-aligned value. -/
theorem timer_setupFaults_oob_cex :
    4 % 4 = 0 ∧
    Event.xbarConnect 1 none ∈ (Timer.setupFaults (Timer.create 0) 4 ⟨0⟩ 1).2 ∧
    xbarFaultOutputAt 0 4 = none := by
  decide

/-- C6 (amended): for `faultNum = 0` — the only 4-aligned value inside the
table's 4 columns — `setupFaults` with `faultPin > 0` requests the routing
service connect the pin to the table entry at (timer index, 0), which
exists for every valid timer index; with `faultPin ≤ 0` the routing call is
suppressed and the fault record is still applied. -/
theorem timer_setupFaults_channel_zero :
    ∀ (tm : Timer) (cfg : FaultConfig) (pin : Int),
      tm.m_tmidx < NofTimers →
      (0 < pin →
        (Timer.setupFaults tm 0 cfg pin).2 =
          [Event.xbarConnect pin.toNat (xbarFaultOutputAt tm.m_tmidx 0),
           Event.pwmSetupFaults tm.m_ptr 0 cfg.kPwmConfig] ∧
        (xbarFaultOutputAt tm.m_tmidx 0).isSome = true) ∧
      (pin ≤ 0 →
        (Timer.setupFaults tm 0 cfg pin).2 =
          [Event.pwmSetupFaults tm.m_ptr 0 cfg.kPwmConfig]) := by
  intro tm cfg pin ht
  have hsome : (xbarFaultOutputAt tm.m_tmidx 0).isSome = true := by
    have h4 : tm.m_tmidx = 0 ∨ tm.m_tmidx = 1 ∨ tm.m_tmidx = 2 ∨ tm.m_tmidx = 3 := by
      simp only [NofTimers] at ht; omega
    rcases h4 with h | h | h | h <;> rw [h] <;> rfl
  constructor
  · intro hpin
    refine ⟨?_, hsome⟩
    simp [Timer.setupFaults, hpin]
  · intro hpin
    have hneg : ¬ (0 < pin) := by omega
    simp [Timer.setupFaults, hneg]

/-- Closed instance of the amended C6 at timer 2, pin 5. -/
theorem timer_setupFaults_channel_zero_witness :
    (0 < (5 : Int) →
      (Timer.setupFaults (Timer.create 2) 0 ⟨7⟩ 5).2 =
        [Event.xbarConnect (Int.toNat 5) (xbarFaultOutputAt (Timer.create 2).m_tmidx 0),
         Event.pwmSetupFaults (Timer.create 2).m_ptr 0 (FaultConfig.mk 7).kPwmConfig] ∧
      (xbarFaultOutputAt (Timer.create 2).m_tmidx 0).isSome = true) ∧
    ((5 : Int) ≤ 0 →
      (Timer.setupFaults (Timer.create 2) 0 ⟨7⟩ 5).2 =
        [Event.pwmSetupFaults (Timer.create 2).m_ptr 0 (FaultConfig.mk 7).kPwmConfig]) :=
  timer_setupFaults_channel_zero (Timer.create 2) ⟨7⟩ 5 (by decide)

/-- C9 (confirmed): any `faultNum` on a 4-boundary but greater than 3
passes the alignment guard, yet the 4-entry table row has no such column:
the total-embedding lookup yields `none`, and with a positive pin the
routing request is issued carrying that empty lookup. -/
theorem timer_setupFaults_aligned_oob :
    ∀ (tm : Timer) (faultNum : Nat) (cfg : FaultConfig) (pin : Int),
      faultNum % 4 = 0 → 3 < faultNum → 0 < pin →
      xbarFaultOutputAt tm.m_tmidx faultNum = none ∧
      Event.xbarConnect pin.toNat none ∈ (Timer.setupFaults tm faultNum cfg pin).2 := by
  intro tm faultNum cfg pin halign hgt hpin
  have hnone : xbarFaultOutputAt tm.m_tmidx faultNum = none := by
    unfold xbarFaultOutputAt
    cases hrow : XBarFaultOutput.get? tm.m_tmidx with
    | none => rfl
    | some row =>
      have hmem : row ∈ XBarFaultOutput := List.get?_mem hrow
      have hrows : ∀ r ∈ XBarFaultOutput, r.length = 4 := by decide
      have hlen : row.length = 4 := hrows row hmem
      have : row.get? faultNum = none := by
        rw [List.get?_eq_none]
        omega
      exact this
  refine ⟨hnone, ?_⟩
  simp [Timer.setupFaults, halign, hpin, hnone]

/-- Closed instance of C9 at timer 1, faultNum 8, pin 2. -/
theorem timer_setupFaults_aligned_oob_witness :
    xbarFaultOutputAt (Timer.create 1).m_tmidx 8 = none ∧
    Event.xbarConnect (Int.toNat 2) none ∈
      (Timer.setupFaults (Timer.create 1) 8 ⟨3⟩ 2).2 :=
  timer_setupFaults_aligned_oob (Timer.create 1) 8 ⟨3⟩ 2 (by decide) (by decide) (by decide)

/-- The public operations of the `Timer` class, as a syntax of calls, used
to state frame conditions over arbitrary call sequences. -/
inductive Op where
  | opBegin : Bool → Bool → Op
  | opEnable : Bool → Op
  | opSetupLevel : Nat → Op
  | opSetupDeadtime : Nat → Op
  | opSetupOutputEnable : Bool → Op
  | opSetupDutyCyclePercent : Nat → Op
  | opSetupFaultState : Nat → Op
  | opUpdateSetting : Bool → Op
  | opSetupFaults : Nat → FaultConfig → Int → Op

/-- Whether an operation is the `enable` call. -/
def Op.isEnable : Op → Bool
  | Op.opEnable _ => true
  | _ => false

/-- Dispatch one public operation to its method and keep the resulting
Timer state. -/
def runOp (sml : SmList) (tm : Timer) : Op → Timer
  | Op.opBegin a b => (Timer.begin sml tm a b).1
  | Op.opEnable v => (Timer.enable sml tm v).1
  | Op.opSetupLevel l => (Timer.setupLevel sml tm l).1
  | Op.opSetupDeadtime d => (Timer.setupDeadtime sml tm d).1
  | Op.opSetupOutputEnable a => (Timer.setupOutputEnable sml tm a).1
  | Op.opSetupDutyCyclePercent d => (Timer.setupDutyCyclePercent sml tm d).1
  | Op.opSetupFaultState f => (Timer.setupFaultState sml tm f).1
  | Op.opUpdateSetting d => (Timer.updateSetting sml tm d).1
  | Op.opSetupFaults n c p => (Timer.setupFaults tm n c p).1

/-- Run a sequence of public operations from left to right. -/
def runOps (sml : SmList) : List Op → Timer → Timer
  | [], tm => tm
  | op :: rest, tm => runOps sml rest (runOp sml tm op)

/-- No public operation writes `m_tmidx`. -/
theorem runOp_m_tmidx (sml : SmList) (tm : Timer) (op : Op) :
    (runOp sml tm op).m_tmidx = tm.m_tmidx := by
  cases op <;> rfl

/-- No public operation writes `m_ptr`. -/
theorem runOp_m_ptr (sml : SmList) (tm : Timer) (op : Op) :
    (runOp sml tm op).m_ptr = tm.m_ptr := by
  cases op <;> rfl

/-- A public operation other than `enable` leaves `m_isenabled` unchanged. -/
theorem runOp_m_isenabled (sml : SmList) (tm : Timer) (op : Op)
    (h : op.isEnable = false) :
    (runOp sml tm op).m_isenabled = tm.m_isenabled := by
  cases op <;> first | rfl | simp [Op.isEnable] at h

/-- C8 (confirmed): over any sequence of the public operations, the
hardware unit index `m_tmidx` and register-block handle `m_ptr` stay
exactly as fixed at construction; `m_isenabled` is unchanged by any
sequence free of `enable` calls, and `enable(value)` sets it to `value`
(the submodule slot table `SmList` is a read-only parameter of every
method, so the slot set is fixed by construction). -/
theorem timer_fields_frame :
    ∀ (sml : SmList) (ops : List Op) (tm : Timer),
      (runOps sml ops tm).m_tmidx = tm.m_tmidx ∧
      (runOps sml ops tm).m_ptr = tm.m_ptr ∧
      ((∀ op ∈ ops, op.isEnable = false) →
        (runOps sml ops tm).m_isenabled = tm.m_isenabled) ∧
      (∀ value : Bool, (runOp sml tm (Op.opEnable value)).m_isenabled = value) := by
  intro sml ops
  induction ops with
  | nil => intro tm; exact ⟨rfl, rfl, fun _ => rfl, fun _ => rfl⟩
  | cons op rest ih =>
    intro tm
    refine ⟨?_, ?_, ?_, fun _ => rfl⟩
    · simp only [runOps]
      rw [(ih (runOp sml tm op)).1, runOp_m_tmidx]
    · simp only [runOps]
      rw [(ih (runOp sml tm op)).2.1, runOp_m_ptr]
    · intro hno
      simp only [runOps]
      rw [(ih (runOp sml tm op)).2.2.1
            (fun o ho => hno o (List.mem_cons_of_mem op ho)),
        runOp_m_isenabled sml tm op (hno op (List.mem_cons_self op rest))]

end eFlex
